import Mathlib

/-!
Verification of the plasio.js point-buffer cache and brush coloring pipeline.

The development shallowly embeds the JavaScript sources:
  * `LocalRamp` (stock-brushes/local-ramp): ramp brush construction, `prepare`,
    `stagingAttributes`, `nodeSelectionStrategy`, `bufferNeedsRecolor`, `colorPoint`,
    `serialize`/`deserialize`;
  * `PointBufferCache` (point-buffer-cache): the node map, `remove`, `flush`,
    `_nodeAncestors`, the impact-candidate computation of `push`, the recolor queue
    update of `_queueRecolorTasks`, and the advisory lock table
    (`_lockNode` / `_releaseNode`);
  * `BrushFactory` (brush-factory): `createBrush`, `serializeBrushes`,
    `deserializeBrushes`;
  * `GreyhoundPipelineLoader` (buffer-loaders): the brush slot array and
    `setColorChannelBrush`, and the module-level `pointCloudBufferStats`.

JavaScript numbers are modelled as `ℚ` (all computations used here are exact),
JS arrays with holes as `List (Option α)`, JS objects used as maps as association
lists, and functions that `throw` as `Except String`.
-/

namespace Plasio

/-! ### JavaScript primitives -/

/-- JS `arr[i] = v` on an array that may be shorter than `i`: missing slots up to
`i` become holes (`none`), then slot `i` is set. -/
def jsArraySet {α : Type} : List (Option α) → Nat → α → List (Option α)
  | [], 0, a => [some a]
  | [], n + 1, a => none :: jsArraySet [] n a
  | _ :: xs, 0, a => some a :: xs
  | x :: xs, n + 1, a => x :: jsArraySet xs n a

/-- Lexicographic comparison of char lists, mirroring the JS default string sort
(code-unit order; all tree-path characters are ASCII). -/
def lexLe : List Char → List Char → Bool
  | [], _ => true
  | _ :: _, [] => false
  | a :: as, b :: bs => if a < b then true else if b < a then false else lexLe as bs

/-- Lexicographic string comparison (the order of JS `Array.prototype.sort` on
these ASCII keys). -/
def strLe (a b : String) : Bool := lexLe a.data b.data

/-- `strLe` as a relation, for use with sorting lemmas. -/
def sLeP (a b : String) : Prop := strLe a b = true

instance : DecidableRel sLeP := fun a b => by unfold sLeP; infer_instance

/-- `s.substring(0, s.length - 1)`: drop the final character. -/
def strDropLast (s : String) : String := ⟨s.data.dropLast⟩

/-- Lower-casing of an ASCII character (`String.prototype.toLowerCase` on the
alphabet used by brush parameters). -/
def charToLower (c : Char) : Char :=
  if 'A' ≤ c ∧ c ≤ 'Z' then Char.ofNat (c.toNat + 32) else c

/-- JS `toLowerCase` on a string. -/
def jsToLower (s : String) : String := ⟨s.data.map charToLower⟩

/-- Parse a list of decimal digits into a natural number accumulator. -/
def digitsToNat : List Char → Nat → Option Nat
  | [], acc => some acc
  | c :: cs, acc =>
    if '0' ≤ c ∧ c ≤ '9' then digitsToNat cs (acc * 10 + (c.toNat - 48)) else none

/-- JS `parseInt` restricted to well-formed optionally-signed decimal strings
(the only inputs the pipeline feeds it); other strings map to `0`. -/
def jsParseInt (s : String) : Int :=
  match s.data with
  | '-' :: rest => -(Int.ofNat ((digitsToNat rest 0).getD 0))
  | l => Int.ofNat ((digitsToNat l 0).getD 0)

/-- `Number.MAX_SAFE_INTEGER`. -/
def maxSafeInteger : Int := 9007199254740991

/-- `Number.MIN_SAFE_INTEGER`. -/
def minSafeInteger : Int := -9007199254740991

/-! ### Stats (per-field histograms) -/

/-- A per-field histogram: bucket key → count. -/
def Hist := List (Int × Int)

/-- Per-field histograms keyed by field name (`bufferStats`,
`pointCloudBufferStats`). -/
def Stats := List (String × Hist)

instance : DecidableEq Hist := by unfold Hist; infer_instance
instance : DecidableEq Stats := by unfold Stats; infer_instance

/-- Modelled from the spec: `minmaxIter` of `util` is not under `src/`; per the
spec the ramp range comes from the smallest and the largest bucket key of the
field histogram. On an empty key iterator we return the same sentinel pair the
caller uses for a missing field. -/
def minmaxIter : List Int → Int × Int
  | [] => (maxSafeInteger, minSafeInteger)
  | k :: ks => ks.foldl (fun p k' => (min p.1 k', max p.2 k')) (k, k)

/-! ### Brush model (`src/unnamed/part_000` lines 1-168, `local-ramp`)

`BaseBrush`, `ClampSelector`, `NodeSelectionStrategy` live in `brush.js`, which
is not under `src/`; the enumerations are taken from the spec (§4.1) and from
their uses in the sources present. -/

/-- Ramp clamp selectors (spec §4.1: NONE, Z_RANGE, INTENSITY_RANGE). -/
inductive ClampSelector
  | NONE
  | Z_RANGE
  | INTENSITY_RANGE
deriving DecidableEq, Repr

/-- Node selection strategies declared by a brush (spec §4.1). -/
inductive NodeSelectionStrategy
  | NONE
  | ANCESTORS
  | ALL
deriving DecidableEq, Repr

/-- `knownFieldSelectors` of `local-ramp`. -/
def knownFieldSelectors : List (String × ClampSelector) :=
  [("z", ClampSelector.Z_RANGE), ("intensity", ClampSelector.INTENSITY_RANGE)]

/-- A brush spec in parsed form `scheme://name?k=v&…`; `parseBrushSpec` of
`util` is not under `src/`, so the URI is kept in its parsed shape
(spec §6 grammar). -/
structure BrushSpec where
  scheme : String
  name : String
  params : List (String × String)
deriving DecidableEq, Repr

/-- Modelled from the spec: `parseColor` of `util` is not under `src/`; spec §6
says ramp colors are given as `#rrggbb` hex strings, and the constructor
defaults (`[0,0,0]` / `[1,1,1]`) show channels live in `[0,1]`. -/
def hexVal (c : Char) : Option Nat :=
  if '0' ≤ c ∧ c ≤ '9' then some (c.toNat - 48)
  else if 'a' ≤ c ∧ c ≤ 'f' then some (c.toNat - 87)
  else if 'A' ≤ c ∧ c ≤ 'F' then some (c.toNat - 55)
  else none

/-- An RGB triple of JS numbers. -/
def Color3 := ℚ × ℚ × ℚ

instance : DecidableEq Color3 := by unfold Color3; infer_instance
instance : Repr Color3 := by unfold Color3; infer_instance

/-- Modelled from the spec: parse a `#rrggbb` string to unit-range channels. -/
def parseColor (s : String) : Option Color3 :=
  match s.data with
  | ['#', r1, r2, g1, g2, b1, b2] => do
    let r ← hexVal r1; let r' ← hexVal r2
    let g ← hexVal g1; let g' ← hexVal g2
    let b ← hexVal b1; let b' ← hexVal b2
    pure (((r * 16 + r' : ℕ) : ℚ) / 255, ((g * 16 + g' : ℕ) : ℚ) / 255,
      ((b * 16 + b' : ℕ) : ℚ) / 255)
  | _ => none

/-- `checkParam(obj, key)` with no default: returns the value or throws. -/
def checkParam (params : List (String × String)) (key : String) :
    Except String String :=
  match params.lookup key with
  | some v => Except.ok v
  | none => Except.error ("missing parameter: " ++ key)

/-- `checkParam(obj, key, default)`: returns the value or the default. -/
def checkParamD (params : List (String × String)) (key dflt : String) : String :=
  (params.lookup key).getD dflt

/-- The persistent state of a `LocalRamp` brush, as established by its
constructor (`local-ramp` lines 33-50). The prepare-time fields
(`min`/`max`/`scalef`/`noColor`) are transient and modelled separately by
`RampState`. -/
structure LocalRamp where
  brushSpec : BrushSpec
  field : String
  step : Int
  readField : String
  rampStartColor : Color3
  rampEndColor : Color3
  selector : ClampSelector
deriving DecidableEq, Repr

/-- The `LocalRamp` constructor (`local-ramp` lines 33-50): `field` is required
and lower-cased, `z` reads the `y` coordinate, `step` defaults to `1` and `0`
becomes `1`, ramp colors default to black/white, and the field must have a known
clamp selector. -/
def LocalRamp.create (spec : BrushSpec) : Except String LocalRamp := do
  let field0 ← checkParam spec.params "field"
  let step0 := jsParseInt (checkParamD spec.params "step" "1")
  let step := if step0 = 0 then 1 else step0
  let field := jsToLower field0
  let readField := if field = "z" then "y" else field
  let rampStartColor := ((spec.params.lookup "start").bind parseColor).getD (0, 0, 0)
  let rampEndColor := ((spec.params.lookup "end").bind parseColor).getD (1, 1, 1)
  match knownFieldSelectors.lookup field with
  | none => Except.error ("missing parameter: " ++ field)
  | some selector =>
    Except.ok { brushSpec := spec, field := field, step := step,
                readField := readField, rampStartColor := rampStartColor,
                rampEndColor := rampEndColor, selector := selector }

/-- `_statsToFieldRange` (`local-ramp` lines 82-97): the min and max bucket key
of the field histogram with the max moved up one bucket (`+10`), or the
`(MAX_SAFE_INTEGER, MIN_SAFE_INTEGER)` sentinel when the field is absent. -/
def statsToFieldRange (field : String) (pointCloudBufferStats : Stats) :
    Int × Int :=
  match List.lookup field pointCloudBufferStats with
  | some histForField =>
    let (s, e) := minmaxIter (histForField.map Prod.fst)
    (s, e + 10)
  | none => (maxSafeInteger, minSafeInteger)

/-- The transient prepare-time state of a ramp brush: either quiescent
(`noColor`) or the computed `min`/`max`/`scalef`. -/
inductive RampState
  | noColor
  | colored (min max : Int) (scalef : ℚ)
deriving DecidableEq, Repr

/-- `LocalRamp.prepare` (`local-ramp` lines 99-111): `noColor` when the range is
empty, otherwise `min`, `max` and `scalef = 255 / (step * (max - min))`. -/
def LocalRamp.prepare (b : LocalRamp) (pointCloudBufferStats : Stats) :
    RampState :=
  let (s, e) := statsToFieldRange b.field pointCloudBufferStats
  if s ≥ e then RampState.noColor
  else RampState.colored s e (255 / ((b.step : ℚ) * ((e : ℚ) - (s : ℚ))))

/-- `LocalRamp.stagingAttributes` (`local-ramp` lines 113-116): `{}` when
`noColor`, else `{min, max}`. -/
def LocalRamp.stagingAttributes (st : RampState) : Option (Int × Int) :=
  match st with
  | RampState.noColor => none
  | RampState.colored mn mx _ => some (mn, mx)

/-- `LocalRamp.nodeSelectionStrategy` (`local-ramp` lines 118-125): `NONE` on an
empty range, else `ALL` with `[s, e]` as strategy params. -/
def LocalRamp.nodeSelectionStrategy (b : LocalRamp)
    (pointCloudBufferStats : Stats) :
    NodeSelectionStrategy × Option (Int × Int) :=
  let (s, e) := statsToFieldRange b.field pointCloudBufferStats
  if s ≥ e then (NodeSelectionStrategy.NONE, none)
  else (NodeSelectionStrategy.ALL, some (s, e))

/-- `LocalRamp.bufferNeedsRecolor` (`local-ramp` lines 127-134): true when the
staged `min`/`max` differ from the strategy params; destructuring `{min,max}`
from an empty staging object yields `undefined`, which compares unequal to the
numbers `s`, `e`. -/
def LocalRamp.bufferNeedsRecolor (strategyParams : Int × Int)
    (staged : Option (Int × Int)) : Bool :=
  match staged with
  | none => true
  | some (mn, mx) => mn ≠ strategyParams.1 ∨ mx ≠ strategyParams.2

/-- `LocalRamp.colorPoint` (`local-ramp` lines 144-155): black when `noColor`,
else `h = floor(scalef * (point[readField] - min)) * step` written to all three
channels. -/
def LocalRamp.colorPoint (b : LocalRamp) (st : RampState)
    (point : List (String × ℚ)) : Color3 :=
  match st with
  | RampState.noColor => (0, 0, 0)
  | RampState.colored mn _ scalef =>
    let v := (point.lookup b.readField).getD 0
    let h : ℚ := ((⌊scalef * (v - (mn : ℚ))⌋ : ℤ) : ℚ) * ((b.step : ℤ) : ℚ)
    (h, h, h)

/-- `LocalRamp.serialize` (`local-ramp` lines 52-55): all parameters come from
the spec, so the payload is empty. -/
def LocalRamp.serialize (_b : LocalRamp) : Unit := ()

/-- `LocalRamp.deserialize` (`local-ramp` lines 57-59): nothing to do. -/
def LocalRamp.deserialize (b : LocalRamp) (_json : Unit) : LocalRamp := b

/-! ### BrushFactory (`src/lib/lib/brush-factory.js`) -/

/-- `BrushFactory.createBrush`: parse the spec, look the `scheme://name` key up
in the registry and construct. Of the four registered stock brush classes only
`LocalRamp` is among the sources, so the embedded registry holds exactly that
class; unknown keys throw `Unrecognized brush spec`. -/
def createBrush (spec : BrushSpec) : Except String LocalRamp :=
  if spec.scheme = "local" ∧ spec.name = "ramp" then LocalRamp.create spec
  else Except.error ("Unrecognized brush spec: " ++ spec.scheme ++ "://" ++ spec.name)

/-- A serialized brush `{s: brushSpec, p: serialize()}` (`brush-factory.js`
lines 66-76). -/
structure SerializedBrush where
  s : BrushSpec
  p : Unit
deriving DecidableEq, Repr

/-- `BrushFactory.serializeBrushes` (`brush-factory.js` lines 66-76): null slots
propagate, others become `{s, p}` records. -/
def serializeBrushes (brushes : List (Option LocalRamp)) :
    List (Option SerializedBrush) :=
  brushes.map (Option.map fun b => { s := b.brushSpec, p := b.serialize })

/-- `BrushFactory.deserializeBrushes` (`brush-factory.js` lines 85-97): null
slots propagate, others are re-created from their spec and fed their payload
(the spec field of a serialized record is always present in the parsed model,
so the `!o.s` throw cannot fire). -/
def deserializeBrushes (objects : List (Option SerializedBrush)) :
    Except String (List (Option LocalRamp)) :=
  objects.mapM fun o =>
    match o with
    | none => Except.ok none
    | some o => do
      let b ← createBrush o.s
      Except.ok (some (b.deserialize o.p))

/-! ### GreyhoundPipelineLoader brush slots (`src/lib/lib/buffer-loaders.js`) -/

/-- The loader's initial brush array (`buffer-loaders.js` line 134):
exactly four null color-channel slots. -/
def initialBrushes : List (Option LocalRamp) := [none, none, none, none]

/-- `GreyhoundPipelineLoader.setColorChannelBrush` (`buffer-loaders.js` lines
321-326): throws for index ≥ 4, otherwise stores `null` or the brush created
from the source spec at that slot. -/
def setColorChannelBrush (brushes : List (Option LocalRamp)) (index : Nat)
    (source : Option BrushSpec) : Except String (List (Option LocalRamp)) :=
  if index ≥ 4 then
    Except.error "Index needs to be less than 4 when setting color channel"
  else
    match source with
    | none => Except.ok (brushes.set index none)
    | some s => do
      let b ← createBrush s
      Except.ok (brushes.set index (some b))

/-! ### PointBufferCache (`src/unnamed/part_000` lines 169-636) -/

/-- The slice of a cached node (`CachedNodeInfo`) that the verified operations
inspect: its tree path. -/
structure Node where
  treePath : String
deriving DecidableEq, Repr

/-- The captured parameters stored with a queued recolor task
(`{geoTransform, pointCloudBufferStats}`, `part_000` line 600); the geo
transform is never inspected by the verified operations. -/
structure RecolorParams where
  pointCloudBufferStats : Stats
deriving DecidableEq

/-- A recolor queue entry `[node, brushes, params]` (`part_000` lines 595-601):
the impacted node, a (possibly sparse) per-slot brush array, and the captured
parameters. -/
structure RecolorTask where
  node : Node
  brushes : List (Option LocalRamp)
  params : RecolorParams
deriving DecidableEq

/-- The mutable state of `PointBufferCache` relevant here: the node map keyed
by tree path, the recolor queue and the driver flag. -/
structure CacheState where
  nodes : List (String × Node)
  recolorTasks : List RecolorTask
  recolorRunning : Bool
deriving DecidableEq

/-- The tree path the `remove` filter reads off a queued task: the source
(`part_000` line 391) evaluates `v[1].treePath`, but `v[1]` is the task's
brushes array, which has no `treePath` property, so the access yields
`undefined` (`none`) for every task. -/
def taskScrubKey (_v : RecolorTask) : Option String := none

/-- `PointBufferCache.remove` (`part_000` lines 384-396): delete the node and
keep exactly the queue entries whose `v[1].treePath` loosely differs from the
removed path (`undefined != path` is true for every string path). -/
def CacheState.remove (st : CacheState) (treePath : String) : CacheState :=
  { st with
    nodes := st.nodes.filter fun p => p.1 ≠ treePath
    recolorTasks := st.recolorTasks.filter fun v => taskScrubKey v ≠ some treePath }

/-- `PointBufferCache.flush` (`part_000` lines 401-407): clear the node map and
the queue and reset the driver flag. -/
def CacheState.flush (_st : CacheState) : CacheState :=
  { nodes := [], recolorTasks := [], recolorRunning := false }

/-- The process-wide picture for flush claims: the cache together with the
module-level `pointCloudBufferStats` of `buffer-loaders.js` (line 72). -/
structure GlobalState where
  cache : CacheState
  pointCloudBufferStats : Stats
deriving DecidableEq

/-- A `flush()` call as observed process-wide: `flush` mutates only the cache
fields; no statement in it (or anywhere else in the sources) clears
`pointCloudBufferStats`, which is private to `buffer-loaders.js`. -/
def GlobalState.flush (g : GlobalState) : GlobalState :=
  { g with cache := g.cache.flush }

/-- The loop body of `_nodeAncestors` (`part_000` lines 415-419): test the
current path, push its node when cached, strip the last character, repeat while
non-empty. Fuel bounds the iteration count by the starting length. -/
def nodeAncestorsAux (nodes : List (String × Node)) : Nat → String → List Node
  | 0, _ => []
  | fuel + 1, tp =>
    if tp.length = 0 then []
    else
      (match List.lookup tp nodes with
       | some node => [node]
       | none => []) ++ nodeAncestorsAux nodes fuel (strDropLast tp)

/-- `PointBufferCache._nodeAncestors` (`part_000` lines 409-422): for paths
longer than the root, walk the proper ancestor chain from the immediate parent
to the root, collecting the cached ones. -/
def nodeAncestors (nodes : List (String × Node)) (treePath : String) :
    List Node :=
  if 1 < treePath.length then
    nodeAncestorsAux nodes treePath.length (strDropLast treePath)
  else []

/-- The `ALL`-strategy candidate paths of `push` (`part_000` lines 347-353):
every cached key other than the pushed path, sorted lexicographically. -/
def allStrategyPaths (nodes : List (String × Node)) (treePath : String) :
    List String :=
  List.insertionSort sLeP ((nodes.map Prod.fst).filter fun id => id ≠ treePath)

/-- The `ALL`-strategy candidates as nodes (`.map(id => this.nodes[id])`). -/
def allStrategyNodes (nodes : List (String × Node)) (treePath : String) :
    List Node :=
  (allStrategyPaths nodes treePath).filterMap fun id => List.lookup id nodes

/-- The impact candidate list (`nodeSet`) computed by `push` for one brush
(`part_000` lines 343-357). -/
def impactCandidates (nodes : List (String × Node)) (treePath : String) :
    NodeSelectionStrategy → List Node
  | NodeSelectionStrategy.NONE => []
  | NodeSelectionStrategy.ALL => allStrategyNodes nodes treePath
  | NodeSelectionStrategy.ANCESTORS => nodeAncestors nodes treePath

/-- The queue scan of `_queueRecolorTasks` (`part_000` lines 576-589): find the
first task queued for the given tree path and splice it out, returning it with
the remaining queue in order. -/
def extractTask : List RecolorTask → String →
    Option (RecolorTask × List RecolorTask)
  | [], _ => none
  | t :: ts, p =>
    if t.node.treePath = p then some (t, ts)
    else
      match extractTask ts p with
      | some (t', ts') => some (t', t :: ts')
      | none => none

/-- One iteration of `_queueRecolorTasks` (`part_000` lines 571-603): when the
impacted node is already queued, set the brush at the slot index on the
existing entry and move it to the tail; otherwise append a fresh entry whose
sparse brush array holds the brush at that index. -/
def enqueueImpact (tasks : List RecolorTask) (brush : LocalRamp) (node : Node)
    (index : Nat) (params : RecolorParams) : List RecolorTask :=
  match extractTask tasks node.treePath with
  | some (task, rest) =>
    rest ++ [{ task with brushes := jsArraySet task.brushes index brush }]
  | none =>
    tasks ++ [{ node := node, brushes := jsArraySet [] index brush,
                params := params }]

/-! ### Tile lock table (`part_000` lines 453-494) -/

/-- `lockedNodes`: tree path → waiting list (waiters identified by number);
presence of a key means the lock is held. -/
def LockTable := List (String × List Nat)

instance : DecidableEq LockTable := by unfold LockTable; infer_instance

/-- Replace the waiting list stored under a key. -/
def setWaiting (lt : LockTable) (key : String) (w : List Nat) : LockTable :=
  lt.map fun p => if p.1 = key then (key, w) else p

/-- The synchronous effect of `_lockNode` (`part_000` lines 453-471): an
unlocked path is marked locked and the call resolves immediately (`true`);
otherwise the caller is appended to the waiting list and the call suspends
(`false`). -/
def lockNode (lt : LockTable) (key : String) (waiter : Nat) :
    LockTable × Bool :=
  match List.lookup key lt with
  | none => ((key, []) :: lt, true)
  | some w => (setWaiting lt key (w ++ [waiter]), false)

/-- `_releaseNode` (`part_000` lines 473-494): with no waiters the entry is
removed, otherwise the head waiter is popped and resolved. -/
def releaseNode (lt : LockTable) (key : String) : LockTable × Option Nat :=
  match List.lookup key lt with
  | none => (lt, none)
  | some [] => (lt.filter fun p => p.1 ≠ key, none)
  | some (w :: ws) => (setWaiting lt key ws, some w)

/-- Where a coloring job stands relative to the tile lock. -/
inductive JobPhase
  | idle
  | awaitingLock
  | coloring
deriving DecidableEq, Repr

/-- A two-job view of one tile path: the lock table plus the phase of a recolor
job and of a push job for that path. -/
structure LockDemoState where
  locks : LockTable
  recolorPhase : JobPhase
  pushPhase : JobPhase
deriving DecidableEq

/-- `_recolorNode` acquiring the tile lock (`part_000` line 541,
`await this._lockNode(node)`): the job enters its color-mutation section only
when the lock is granted immediately, otherwise it suspends on the wait list. -/
def recolorAcquire (s : LockDemoState) (key : String) : LockDemoState :=
  let (lt, acquired) := lockNode s.locks key 0
  { s with locks := lt,
           recolorPhase := if acquired then JobPhase.coloring
                           else JobPhase.awaitingLock }

/-- `push` acquiring the tile lock (`part_000` line 299,
`this._lockNode(downloadedBufferParams)` — the returned promise is not
awaited): the lock call's synchronous effect happens, and the job proceeds to
dispatch the coloring job regardless of whether the lock was granted. -/
def pushAcquire (s : LockDemoState) (key : String) : LockDemoState :=
  let (lt, _acquired) := lockNode s.locks key 1
  { s with locks := lt, pushPhase := JobPhase.coloring }

/-! ### Concrete fixtures used by the claims -/

instance {ε α : Type} [DecidableEq ε] [DecidableEq α] : DecidableEq (Except ε α)
  | Except.ok a, Except.ok b => decidable_of_iff (a = b) (by simp)
  | Except.ok _, Except.error _ => isFalse (by simp)
  | Except.error _, Except.ok _ => isFalse (by simp)
  | Except.error e, Except.error f => decidable_of_iff (e = f) (by simp)

/-- The aggregate stats of scenario 1 (spec §8): `{z: {0:1, 10:1, 20:1, 30:1}}`. -/
def demoStats : Stats := [("z", [(0, 1), (10, 1), (20, 1), (30, 1)])]

/-- The parsed form of `local://ramp?field=z&step=1`. -/
def demoSpec : BrushSpec := ⟨"local", "ramp", [("field", "z"), ("step", "1")]⟩

/-- The ramp brush the factory builds from `demoSpec`. -/
def demoRamp : LocalRamp :=
  ⟨demoSpec, "z", 1, "y", (0, 0, 0), (1, 1, 1), ClampSelector.Z_RANGE⟩

/-- A cache holding `R`, `R1`, `R12` and the freshly pushed `R123`. -/
def demoNodes : List (String × Node) :=
  [("R", ⟨"R"⟩), ("R1", ⟨"R1"⟩), ("R12", ⟨"R12"⟩), ("R123", ⟨"R123"⟩)]

/-- A cache holding `R` and `R12` but not `R1`. -/
def gapNodes : List (String × Node) := [("R", ⟨"R"⟩), ("R12", ⟨"R12"⟩)]

/-! ### Helper lemmas: the lexicographic order -/

theorem lexLe_total : ∀ as bs : List Char, lexLe as bs = true ∨ lexLe bs as = true
  | [], _ => Or.inl rfl
  | _ :: _, [] => Or.inr rfl
  | a :: as, b :: bs => by
    rcases lt_trichotomy a b with h | h | h
    · left; simp [lexLe, h]
    · subst h
      rcases lexLe_total as bs with ih | ih
      · left; simp [lexLe, lt_irrefl, ih]
      · right; simp [lexLe, lt_irrefl, ih]
    · right; simp [lexLe, h]

theorem lexLe_trans : ∀ as bs cs : List Char,
    lexLe as bs = true → lexLe bs cs = true → lexLe as cs = true
  | [], _, _, _, _ => rfl
  | _ :: _, [], _, h1, _ => by simp [lexLe] at h1
  | _ :: _, _ :: _, [], _, h2 => by simp [lexLe] at h2
  | a :: as, b :: bs, c :: cs, h1, h2 => by
    simp only [lexLe] at h1 h2 ⊢
    rcases lt_trichotomy a b with hab | hab | hab
    · rcases lt_trichotomy b c with hbc | hbc | hbc
      · simp [hab.trans hbc]
      · subst hbc; simp [hab]
      · simp [hab, lt_asymm hab] at h1
        simp [hbc, lt_asymm hbc] at h2
    · subst hab
      simp [lt_irrefl] at h1
      rcases lt_trichotomy a c with hac | hac | hac
      · simp [hac]
      · subst hac; simp [lt_irrefl] at h2 ⊢; exact lexLe_trans as bs cs h1 h2
      · simp [hac, lt_asymm hac] at h2
    · simp [hab, lt_asymm hab] at h1

instance : IsTotal String sLeP :=
  ⟨fun a b => lexLe_total a.data b.data⟩

instance : IsTrans String sLeP :=
  ⟨fun a b c h1 h2 => lexLe_trans a.data b.data c.data h1 h2⟩

/-! ### Helper lemmas: the ancestor chain -/

/-- The chain `tp, tp[..-1], …` down to the single-character root, longest
first: the paths the `_nodeAncestors` loop visits when started on `tp`. -/
def pathChainDesc (tp : String) : List String :=
  (List.range tp.length).reverse.map fun i => ⟨tp.data.take (i + 1)⟩

/-- The proper ancestors of a tree path, immediate parent first, root last. -/
def ancestorChainDesc (tp : String) : List String := pathChainDesc (strDropLast tp)

theorem strDropLast_length (tp : String) : (strDropLast tp).length = tp.length - 1 :=
  List.length_dropLast tp.data

theorem pathChainDesc_cons (tp : String) (h : tp.length ≠ 0) :
    pathChainDesc tp = tp :: pathChainDesc (strDropLast tp) := by
  obtain ⟨n, hn⟩ : ∃ n, tp.length = n + 1 :=
    Nat.exists_eq_succ_of_ne_zero h
  have hdata : tp.data.length = n + 1 := hn
  simp only [pathChainDesc, hn, strDropLast_length, Nat.add_sub_cancel,
    List.range_succ, List.reverse_append, List.reverse_cons, List.reverse_nil,
    List.nil_append, List.singleton_append, List.map_cons]
  congr 1
  · show (⟨tp.data.take (n + 1)⟩ : String) = tp
    rw [← hdata, List.take_length]
  · apply List.map_congr_left
    intro i hi
    rw [List.mem_reverse, List.mem_range] at hi
    show (⟨tp.data.take (i + 1)⟩ : String) = ⟨(strDropLast tp).data.take (i + 1)⟩
    simp only [strDropLast, List.dropLast_eq_take, List.take_take, hdata,
      Nat.add_sub_cancel]
    rw [min_eq_left (by omega)]

theorem nodeAncestorsAux_eq (nodes : List (String × Node)) :
    ∀ (fuel : Nat) (tp : String), tp.length ≤ fuel →
      nodeAncestorsAux nodes fuel tp
        = (pathChainDesc tp).filterMap fun p => List.lookup p nodes
  | 0, tp, h => by
    have : tp.length = 0 := Nat.le_zero.mp h
    simp [nodeAncestorsAux, pathChainDesc, this]
  | fuel + 1, tp, h => by
    by_cases h0 : tp.length = 0
    · simp [nodeAncestorsAux, pathChainDesc, h0]
    · rw [pathChainDesc_cons tp h0]
      have hrec := nodeAncestorsAux_eq nodes fuel (strDropLast tp)
        (by rw [strDropLast_length]; omega)
      simp only [nodeAncestorsAux, h0, if_false, hrec, List.filterMap_cons]
      cases List.lookup tp nodes <;> simp

/-- `_nodeAncestors` yields exactly the cached nodes along the proper ancestor
chain, immediate parent first; absent ancestors are skipped and the walk
continues to the root. -/
theorem nodeAncestors_eq (nodes : List (String × Node)) (tp : String) :
    nodeAncestors nodes tp
      = (ancestorChainDesc tp).filterMap fun p => List.lookup p nodes := by
  unfold nodeAncestors ancestorChainDesc
  by_cases h : 1 < tp.length
  · rw [if_pos h]
    exact nodeAncestorsAux_eq nodes tp.length (strDropLast tp)
      (by rw [strDropLast_length]; omega)
  · have : (strDropLast tp).length = 0 := by rw [strDropLast_length]; omega
    simp [h, pathChainDesc, this]

/-! ### Helper lemmas: the recolor queue -/

/-- The tree paths of the queued tasks, in queue order. -/
def taskPaths (q : List RecolorTask) : List String :=
  q.map fun t => t.node.treePath

theorem extractTask_eq_none_iff (q : List RecolorTask) (p : String) :
    extractTask q p = none ↔ p ∉ taskPaths q := by
  induction q with
  | nil => simp [extractTask, taskPaths]
  | cons t ts ih =>
    by_cases h : t.node.treePath = p
    · simp [extractTask, h, taskPaths]
    · cases hE : extractTask ts p with
      | none =>
        rw [hE] at ih
        have hts : p ∉ taskPaths ts := ih.mp rfl
        simp only [extractTask, h, if_false, hE, taskPaths, List.map_cons,
          List.mem_cons, true_iff]
        rintro (hc | hc)
        · exact h hc.symm
        · exact hts hc
      | some pair =>
        rw [hE] at ih
        have hts : p ∈ taskPaths ts := by
          by_contra hc
          exact Option.noConfusion (ih.mpr hc)
        simp only [extractTask, h, if_false, hE, taskPaths, List.map_cons,
          List.mem_cons]
        exact iff_of_false (fun hc => Option.noConfusion hc)
          (fun hc => hc (Or.inr hts))

theorem extractTask_some (q : List RecolorTask) (p : String)
    (t : RecolorTask) (rest : List RecolorTask)
    (h : extractTask q p = some (t, rest)) :
    t.node.treePath = p ∧
      ∃ l1 l2, q = l1 ++ t :: l2 ∧ rest = l1 ++ l2 ∧ p ∉ taskPaths l1 := by
  induction q generalizing rest with
  | nil => simp [extractTask] at h
  | cons u ts ih =>
    by_cases hu : u.node.treePath = p
    · simp only [extractTask, hu, if_true, Option.some.injEq, Prod.mk.injEq] at h
      obtain ⟨ht, hrest⟩ := h
      subst ht; subst hrest
      exact ⟨hu, [], ts, by simp, by simp, by simp [taskPaths]⟩
    · simp only [extractTask, hu, if_false] at h
      cases hE : extractTask ts p with
      | none => rw [hE] at h; cases h
      | some pair =>
        rw [hE] at h
        obtain ⟨t', ts'⟩ := pair
        simp only [Option.some.injEq, Prod.mk.injEq] at h
        obtain ⟨ht, hrest⟩ := h
        subst ht
        obtain ⟨htp, l1, l2, hq, hr, hnot⟩ := ih ts' hE
        refine ⟨htp, u :: l1, l2, by simp [hq], by simp [← hrest, hr], ?_⟩
        simp only [taskPaths, List.map_cons, List.mem_cons]
        rintro (hc | hc)
        · exact hu hc.symm
        · exact hnot (by simpa [taskPaths] using hc)

theorem lookup_filter_ne_self (l : List (String × Node)) (p : String) :
    List.lookup p (l.filter fun q => q.1 ≠ p) = none := by
  induction l with
  | nil => rfl
  | cons a rest ih =>
    obtain ⟨k, v⟩ := a
    by_cases h : k = p
    · have hpred : (decide ((k, v).1 ≠ p)) = false := by simp [h]
      rw [List.filter_cons, hpred]
      exact ih
    · have hpred : (decide ((k, v).1 ≠ p)) = true := by simp [h]
      rw [List.filter_cons, hpred]
      have hne : (p == k) = false :=
        beq_eq_false_iff_ne.mpr fun hc => h hc.symm
      simp only [if_true, List.lookup, hne]
      exact ih

/-! ### Claims -/

/-- The failing input for claim C1: the cache holds tile `R` and the recolor
queue holds one entry for `R`. -/
def removeDemoState : CacheState :=
  { nodes := [("R", ⟨"R"⟩)],
    recolorTasks := [⟨⟨"R"⟩, [some demoRamp], ⟨demoStats⟩⟩],
    recolorRunning := false }

/-- Claim C1: after `remove(p)` the tile map no longer contains `p`, but —
contrary to the claim — the recolor queue is returned unchanged for every
state and path, because the scrub filter reads `treePath` off the task's
brushes array (`v[1]`) instead of its node (`v[0]`); in particular an entry
queued for `R` survives `remove("R")`. -/
theorem claim_C1_remove_leaves_queue (st : CacheState) (p : String) :
    (List.lookup p (st.remove p).nodes = none ∧
      (st.remove p).recolorTasks = st.recolorTasks) ∧
    (removeDemoState.remove "R").recolorTasks
      = [⟨⟨"R"⟩, [some demoRamp], ⟨demoStats⟩⟩] := by
  refine ⟨⟨lookup_filter_ne_self st.nodes p, ?_⟩, by decide⟩
  simp [CacheState.remove, taskScrubKey]

/-- The counterexample state for claim C2: the aggregate stats are non-empty
when `flush()` is called. -/
def flushDemoGlobal : GlobalState :=
  { cache := { nodes := [("R", ⟨"R"⟩)],
               recolorTasks := [⟨⟨"R"⟩, [some demoRamp], ⟨demoStats⟩⟩],
               recolorRunning := true },
    pointCloudBufferStats := demoStats }

/-- Claim C2, counterexample: at `flushDemoGlobal` the claimed postcondition of
`flush()` fails, because `pointCloudBufferStats` is not cleared. -/
theorem claim_C2_flush_counterexample :
    ¬(flushDemoGlobal.flush.cache.nodes = [] ∧
      flushDemoGlobal.flush.cache.recolorTasks = [] ∧
      flushDemoGlobal.flush.pointCloudBufferStats = ([] : Stats)) := by
  decide

/-- Claim C2, amended: after `flush()` the tile map and the recolor queue are
empty (and the driver flag is cleared), while the process-wide
`pointCloudBufferStats` of `buffer-loaders.js` is left exactly as it was —
no code in the sources ever clears it. -/
theorem claim_C2_flush_amended (g : GlobalState) :
    g.flush.cache.nodes = [] ∧ g.flush.cache.recolorTasks = [] ∧
    g.flush.cache.recolorRunning = false ∧
    g.flush.pointCloudBufferStats = g.pointCloudBufferStats :=
  ⟨rfl, rfl, rfl, rfl⟩

/-- The initial state for the claim C4 interleaving: nothing locked, a recolor
job and a push job for tile `R` both pending. -/
def lockDemoInit : LockDemoState :=
  { locks := [], recolorPhase := JobPhase.idle, pushPhase := JobPhase.idle }

/-- Claim C4: mutual exclusion fails. After the recolor job acquires the `R`
lock and enters its color-mutation section, a `push` for `R` also enters its
color-mutation section: `push` registers as waiter 1 on the held lock but does
not await the lock promise (`part_000` line 299), so both jobs color tile `R`
concurrently. -/
theorem claim_C4_push_recolor_not_mutually_excluded :
    (pushAcquire (recolorAcquire lockDemoInit "R") "R").recolorPhase
        = JobPhase.coloring ∧
    (pushAcquire (recolorAcquire lockDemoInit "R") "R").pushPhase
        = JobPhase.coloring ∧
    List.lookup "R" (pushAcquire (recolorAcquire lockDemoInit "R") "R").locks
        = some [1] := by
  decide

/-- Claim C6: for a push of `R123` into a cache holding `R`, `R1`, `R12` (and
the new `R123`), the `ANCESTORS` candidates are evaluated immediate parent
first (`R12, R1, R`); the `ALL` candidates are every cached path other than the
pushed one, in lexicographic order — stated concretely and, for `ALL`, in
general as sortedness plus permutation of the other cached keys. -/
theorem claim_C6_impact_candidate_order :
    ((impactCandidates demoNodes "R123" NodeSelectionStrategy.ANCESTORS).map
        Node.treePath = ["R12", "R1", "R"]) ∧
    ((impactCandidates demoNodes "R123" NodeSelectionStrategy.ALL).map
        Node.treePath = ["R", "R1", "R12"]) ∧
    (∀ (nodes : List (String × Node)) (treePath : String),
      List.Sorted sLeP (allStrategyPaths nodes treePath) ∧
      (allStrategyPaths nodes treePath).Perm
        ((nodes.map Prod.fst).filter fun id => id ≠ treePath)) := by
  refine ⟨by decide, by decide, fun nodes treePath => ⟨?_, ?_⟩⟩
  · exact List.sorted_insertionSort sLeP _
  · exact List.perm_insertionSort sLeP _

/-- Claim C10: `_nodeAncestors` returns exactly the cached nodes along the
proper ancestor chain of the path, immediate parent first and root last; a
missing ancestor is skipped and the walk continues past it toward the root
(concretely, with `R1` absent the candidates for `R123` are `R12, R`), and
for the root path `R` the list is empty. -/
theorem claim_C10_node_ancestors :
    (∀ (nodes : List (String × Node)) (tp : String),
      nodeAncestors nodes tp
        = (ancestorChainDesc tp).filterMap fun p => List.lookup p nodes) ∧
    (∀ nodes : List (String × Node), nodeAncestors nodes "R" = []) ∧
    (ancestorChainDesc "R123" = ["R12", "R1", "R"]) ∧
    ((nodeAncestors gapNodes "R123").map Node.treePath = ["R12", "R"]) := by
  refine ⟨nodeAncestors_eq, fun nodes => ?_, by decide, by decide⟩
  rw [nodeAncestors_eq, show ancestorChainDesc "R" = [] from by decide]
  rfl

/-- Claim C3: the recolor queue keeps at most one entry per tile path. One
`_queueRecolorTasks` iteration preserves path distinctness; the resulting
queue ends with the impacted path; a path not yet queued gets a fresh tail
entry with the brush at the slot index; a path already queued has its existing
(unique) entry updated at the slot index and moved to the tail. -/
theorem claim_C3_recolor_queue_coalescing (q : List RecolorTask)
    (brush : LocalRamp) (node : Node) (index : Nat) (params : RecolorParams)
    (hq : (taskPaths q).Nodup) :
    (taskPaths (enqueueImpact q brush node index params)).Nodup ∧
    ((enqueueImpact q brush node index params).getLast?.map
        (fun t => t.node.treePath) = some node.treePath) ∧
    (node.treePath ∉ taskPaths q →
      enqueueImpact q brush node index params
        = q ++ [⟨node, jsArraySet [] index brush, params⟩]) ∧
    (∀ t rest, extractTask q node.treePath = some (t, rest) →
      t.node.treePath = node.treePath ∧
      enqueueImpact q brush node index params
        = rest ++ [{ t with brushes := jsArraySet t.brushes index brush }]) := by
  cases hE : extractTask q node.treePath with
  | none =>
    have hnot : node.treePath ∉ taskPaths q :=
      (extractTask_eq_none_iff q node.treePath).mp hE
    have henq : enqueueImpact q brush node index params
        = q ++ [⟨node, jsArraySet [] index brush, params⟩] := by
      simp only [enqueueImpact, hE]
    refine ⟨?_, ?_, fun _ => henq, fun t rest hsome => ?_⟩
    · rw [henq]
      have : taskPaths (q ++ [⟨node, jsArraySet [] index brush, params⟩])
          = taskPaths q ++ node.treePath :: [] := by
        simp [taskPaths]
      rw [this, List.nodup_middle]
      simp [hq, hnot]
    · rw [henq]
      simp [List.getLast?_concat]
    · exact Option.noConfusion hsome
  | some pair =>
    obtain ⟨t, rest⟩ := pair
    obtain ⟨htp, l1, l2, hsplit, hrest, _⟩ :=
      extractTask_some q node.treePath t rest hE
    have henq : enqueueImpact q brush node index params
        = rest ++ [{ t with brushes := jsArraySet t.brushes index brush }] := by
      simp only [enqueueImpact, hE]
    refine ⟨?_, ?_, fun hnot => ?_, fun t' rest' hsome => ?_⟩
    · rw [henq]
      have hpq : taskPaths q
          = taskPaths l1 ++ node.treePath :: taskPaths l2 := by
        simp [hsplit, taskPaths, htp]
      have hnodup : (node.treePath :: (taskPaths l1 ++ taskPaths l2)).Nodup := by
        rw [hpq] at hq
        exact List.nodup_middle.mp hq
      have hres : taskPaths
            (rest ++ [{ t with brushes := jsArraySet t.brushes index brush }])
          = (taskPaths l1 ++ taskPaths l2) ++ node.treePath :: [] := by
        simp [hrest, taskPaths, htp]
      rw [hres, List.nodup_middle]
      simpa using hnodup
    · rw [henq]
      simp [List.getLast?_concat, htp]
    · have hcontra : extractTask q node.treePath = none :=
        (extractTask_eq_none_iff q node.treePath).mpr hnot
      rw [hE] at hcontra
      cases hcontra
    · simp only [Option.some.injEq, Prod.mk.injEq] at hsome
      obtain ⟨h1, h2⟩ := hsome
      subst h1; subst h2
      exact ⟨htp, henq⟩

/-- The concrete queue for the C3 witness: one entry for tile `R0` holding the
ramp brush at slot 0. -/
def demoQueue : List RecolorTask :=
  [⟨⟨"R0"⟩, [some demoRamp], ⟨demoStats⟩⟩]

theorem claim_C3_witness :
    (taskPaths demoQueue).Nodup ∧
    (taskPaths (enqueueImpact demoQueue demoRamp ⟨"R0"⟩ 1 ⟨demoStats⟩)).Nodup ∧
    enqueueImpact demoQueue demoRamp ⟨"R0"⟩ 1 ⟨demoStats⟩
      = [⟨⟨"R0"⟩, [some demoRamp, some demoRamp], ⟨demoStats⟩⟩] := by
  refine ⟨by decide, ?_, by decide⟩
  exact (claim_C3_recolor_queue_coalescing demoQueue demoRamp ⟨"R0"⟩ 1
    ⟨demoStats⟩ (by decide)).1

/-- The spec's formula for the ramp scale factor:
`scalef = 255 / (step × (max − min))`. -/
def specRampScale (step s e : Int) : ℚ :=
  255 / ((step : ℚ) * ((e : ℚ) - (s : ℚ)))

/-- The spec's formula for the per-point ramp value:
`h = floor(scalef × (fieldValue − min)) × step`. -/
def specRampH (scalef : ℚ) (mn step : Int) (v : ℚ) : ℚ :=
  ((⌊scalef * (v - (mn : ℚ))⌋ : ℤ) : ℚ) * ((step : ℤ) : ℚ)

/-- Claim C5: on a non-empty range, `prepare` computes exactly the spec's
`scalef` and `colorPoint` writes the spec's `h` into all three channels; in the
concrete scenario (stats `{z: {0:1,10:1,20:1,30:1}}`, step 1, field values
`0, 5, 10, 15`) the range is `(0, 40)`, `scalef = 51/8 = 6.375`, and the
per-point `h` values are `0, 31, 63, 95`. -/
theorem claim_C5_ramp_color_formula (b : LocalRamp) (stats : Stats) (s e : Int)
    (h1 : statsToFieldRange b.field stats = (s, e)) (h2 : s < e) :
    (b.prepare stats = RampState.colored s e (specRampScale b.step s e)) ∧
    (∀ (point : List (String × ℚ)) (v : ℚ),
      point.lookup b.readField = some v →
      b.colorPoint (b.prepare stats) point
        = (specRampH (specRampScale b.step s e) s b.step v,
           specRampH (specRampScale b.step s e) s b.step v,
           specRampH (specRampScale b.step s e) s b.step v)) ∧
    (([0, 5, 10, 15] : List ℚ).map
        (fun v => demoRamp.colorPoint (demoRamp.prepare demoStats) [("y", v)])
      = [(0, 0, 0), (31, 31, 31), (63, 63, 63), (95, 95, 95)]) ∧
    (statsToFieldRange "z" demoStats = (0, 40) ∧
      specRampScale 1 0 40 = 51 / 8) := by
  have hprep : b.prepare stats
      = RampState.colored s e (specRampScale b.step s e) := by
    unfold LocalRamp.prepare specRampScale
    rw [h1]
    simp [not_le.mpr h2]
  refine ⟨hprep, fun point v hv => ?_, ?_, by decide, ?_⟩
  · rw [hprep]
    simp [LocalRamp.colorPoint, specRampH, hv]
  · simp [LocalRamp.colorPoint, LocalRamp.prepare, statsToFieldRange, demoRamp,
      demoStats, minmaxIter]
    norm_num [Int.floor_eq_iff, Prod.ext_iff]
  · unfold specRampScale
    norm_num

theorem claim_C5_witness :
    statsToFieldRange demoRamp.field demoStats = (0, 40) ∧ (0 : Int) < 40 ∧
    demoRamp.prepare demoStats
      = RampState.colored 0 40 (specRampScale demoRamp.step 0 40) ∧
    demoRamp.colorPoint (demoRamp.prepare demoStats) [("y", 5)]
      = (31, 31, 31) := by
  have h := claim_C5_ramp_color_formula demoRamp demoStats 0 40
    (by decide) (by decide)
  refine ⟨by decide, by decide, h.1, ?_⟩
  have hc := h.2.1 [("y", 5)] 5 (by decide)
  rw [hc]
  norm_num [specRampH, specRampScale, demoRamp, Int.floor_eq_iff]

/-- Claim C7: on an empty range (`min ≥ max`, in particular when the field is
absent from the stats), `prepare` puts the ramp into the quiescent `noColor`
mode, `colorPoint` then writes `(0,0,0)` for every point, and the node
selection strategy is `NONE`. -/
theorem claim_C7_empty_range_quiescent (b : LocalRamp) (stats : Stats)
    (s e : Int) (h1 : statsToFieldRange b.field stats = (s, e)) (h2 : e ≤ s) :
    b.prepare stats = RampState.noColor ∧
    (∀ point : List (String × ℚ),
      b.colorPoint (b.prepare stats) point = (0, 0, 0)) ∧
    b.nodeSelectionStrategy stats = (NodeSelectionStrategy.NONE, none) := by
  have hprep : b.prepare stats = RampState.noColor := by
    unfold LocalRamp.prepare
    rw [h1]
    simp [h2]
  refine ⟨hprep, fun point => ?_, ?_⟩
  · rw [hprep]; rfl
  · unfold LocalRamp.nodeSelectionStrategy
    rw [h1]
    simp [h2]

theorem claim_C7_witness :
    statsToFieldRange demoRamp.field ([] : Stats)
      = (maxSafeInteger, minSafeInteger) ∧
    demoRamp.prepare ([] : Stats) = RampState.noColor ∧
    demoRamp.colorPoint (demoRamp.prepare ([] : Stats)) [("y", 5)]
      = (0, 0, 0) ∧
    demoRamp.nodeSelectionStrategy ([] : Stats)
      = (NodeSelectionStrategy.NONE, none) := by
  have h := claim_C7_empty_range_quiescent demoRamp ([] : Stats)
    maxSafeInteger minSafeInteger (by decide) (by decide)
  exact ⟨by decide, h.1, h.2.1 [("y", 5)], h.2.2⟩

/-- A brush slot is factory-consistent when re-creating its brush from its own
spec reproduces it; every slot the pipeline builds (via `createBrush`) is. -/
def wellFormedSlot : Option LocalRamp → Prop
  | none => True
  | some b => createBrush b.brushSpec = Except.ok b

instance : DecidablePred wellFormedSlot := fun o => by
  cases o <;> (unfold wellFormedSlot; infer_instance)

/-- Claim C8: `deserializeBrushes ∘ serializeBrushes` is the identity on brush
lists whose non-null slots are factory-consistent — same length, nulls at the
same indices, and every non-null slot equal to the original (the persistent
state is all `serialize`/`create` touch; prepare-time state is transient). -/
theorem claim_C8_serialize_roundtrip (l : List (Option LocalRamp))
    (h : ∀ o ∈ l, wellFormedSlot o) :
    deserializeBrushes (serializeBrushes l) = Except.ok l ∧
    (serializeBrushes l).length = l.length := by
  constructor
  · induction l with
    | nil => rfl
    | cons o rest ih =>
      have hrest := ih fun o' ho' => h o' (List.mem_cons_of_mem _ ho')
      cases o with
      | none =>
        simp only [serializeBrushes, List.map_cons, deserializeBrushes,
          List.mapM_cons]
        simp only [serializeBrushes, deserializeBrushes] at hrest
        rw [hrest]
        rfl
      | some b =>
        have hb : createBrush b.brushSpec = Except.ok b :=
          h (some b) (List.mem_cons_self _ _)
        simp only [serializeBrushes, List.map_cons, deserializeBrushes,
          List.mapM_cons]
        simp only [serializeBrushes, deserializeBrushes] at hrest
        rw [hrest]
        simp only [Option.map_some', LocalRamp.serialize, LocalRamp.deserialize]
        simp only [hb]
        rfl
  · simp [serializeBrushes]

/-- The brush list for the C8 witness: a factory-made ramp brush and a null. -/
def demoBrushList : List (Option LocalRamp) := [some demoRamp, none]

theorem claim_C8_witness :
    (∀ o ∈ demoBrushList, wellFormedSlot o) ∧
    deserializeBrushes (serializeBrushes demoBrushList)
      = Except.ok demoBrushList ∧
    (serializeBrushes demoBrushList).length = demoBrushList.length := by
  refine ⟨by decide, ?_, ?_⟩
  · exact (claim_C8_serialize_roundtrip demoBrushList (by decide)).1
  · exact (claim_C8_serialize_roundtrip demoBrushList (by decide)).2

/-- Claim C9: the loader starts with exactly four null brush slots;
`setColorChannelBrush` throws for every index ≥ 4 (producing no updated
array), and for an index in 0..3 stores `null` for a null source and the brush
created from the source otherwise. -/
theorem claim_C9_color_channel_slots (brushes : List (Option LocalRamp))
    (index : Nat) (source : Option BrushSpec) :
    (initialBrushes.length = 4 ∧ initialBrushes = [none, none, none, none]) ∧
    (4 ≤ index → setColorChannelBrush brushes index source
        = Except.error
            "Index needs to be less than 4 when setting color channel") ∧
    (index < 4 → setColorChannelBrush brushes index none
        = Except.ok (brushes.set index none)) ∧
    (index < 4 → ∀ (s : BrushSpec) (b : LocalRamp),
      createBrush s = Except.ok b →
      setColorChannelBrush brushes index (some s)
        = Except.ok (brushes.set index (some b))) := by
  refine ⟨⟨rfl, rfl⟩, fun h4 => ?_, fun h4 => ?_, fun h4 s b hb => ?_⟩
  · unfold setColorChannelBrush
    rw [if_pos h4]
  · unfold setColorChannelBrush
    rw [if_neg (not_le.mpr h4)]
  · unfold setColorChannelBrush
    rw [if_neg (not_le.mpr h4)]
    simp only [hb]
    rfl

theorem claim_C9_witness :
    (4 ≤ 5) ∧
    setColorChannelBrush initialBrushes 5 (some demoSpec)
      = Except.error
          "Index needs to be less than 4 when setting color channel" ∧
    (2 < 4) ∧ createBrush demoSpec = Except.ok demoRamp ∧
    setColorChannelBrush initialBrushes 2 (some demoSpec)
      = Except.ok [none, none, some demoRamp, none] := by
  refine ⟨by decide,
    (claim_C9_color_channel_slots initialBrushes 5 (some demoSpec)).2.1
      (by decide),
    by decide, by decide, ?_⟩
  have h := (claim_C9_color_channel_slots initialBrushes 2
    (some demoSpec)).2.2.2 (by decide) demoSpec demoRamp (by decide)
  exact h.trans (by decide)


end Plasio
